import Mathlib

/-!
Verification development for the agent-based emergent-behavior simulator in
`emergent_protolearning.py`.  The simulation core (constants, `Neuron`,
`TensionSpider`, `plasma_mutate_spider`, `Predator`, `detect_clusters`, and the
per-step `update` function) is shallowly embedded below.  Real arithmetic of
the source (Python floats) is modelled exactly over `ℚ`; every call to the
global random generator is replaced by a value supplied by an explicit
`Oracle`, indexed by step number (and agent index where the source draws once
per agent), so that one oracle value stands for one RNG call of the source.
Rendering, animation and console output are outside the embedded core, matching
the spec's scope.
-/

-- ==============================
-- Parameters (source lines 10-22)
-- ==============================

def NUM_NEURONS : ℕ := 20
def STEPS : ℕ := 400
def RADIUS : ℚ := 1/4
def DRIFT : ℚ := 1/100
def NOISE : ℚ := 1/20

def POKE_STEP : ℕ := 50
def POKE_NEURON : ℕ := 5
def POKE_VALUE : ℤ := 3

def PREDATOR_INTERVAL : ℤ := 100
def PREDATOR_SPEED : ℚ := 1/20
def PREDATOR_RADIUS : ℚ := 1/20

/-- The three phase labels SOLID, LIQUID, PLASMA (source lines 24-26). -/
inductive Phase where
  | SOLID
  | LIQUID
  | PLASMA
deriving DecidableEq, Repr

/-- Python float modulo by 1.0: `x % 1.0 = x - floor x`, always in `[0,1)`
(source wraps positions with `% 1.0`). -/
def fmod1 (q : ℚ) : ℚ := q - (⌊q⌋ : ℚ)

/-- Python 3 `round` to an integer: round half to even (banker's rounding).
Used by the source as `int(round(avg))` (source line 183). -/
def pyRound (q : ℚ) : ℤ :=
  let f : ℤ := ⌊q⌋
  let r : ℚ := q - (f : ℚ)
  if r < 1/2 then f
  else if 1/2 < r then f + 1
  else if 2 ∣ f then f else f + 1

-- ==============================
-- Oracle for the random stream
-- ==============================

/-- One value per call of the source's random generator, indexed by step
number `k` (and agent index `i` for the per-agent draws inside a step).
`random.uniform(a,b)` calls are modelled by a unit draw `u` with the drawn
value `a + u * (b - a)`; a draw of the generator that the source feeds into
`random.random()` is in `[0,1)`, `random.randint(1,3)` is in `{1,2,3}`, and
`random.choice([-1,0,1])` is in `{-1,0,1}` — those range facts appear as
hypotheses on the theorems that need them.  The heading drawn by
`random.uniform(0, 2*pi)` enters the source only through `cos`/`sin`, so the
oracle supplies the pair `(dirX, dirY)` of those two values directly. -/
structure Oracle where
  initX : ℕ → ℚ
  initY : ℕ → ℚ
  initStateDraw : ℕ → ℤ
  plasmaDraw : ℕ → ℕ → ℤ
  choiceDraw : ℕ → ℕ → ℤ
  noiseX : ℕ → ℕ → ℚ
  noiseY : ℕ → ℕ → ℚ
  solidU : ℕ → ℚ
  plasmaU : ℕ → ℚ
  spawnX : ℕ → ℚ
  spawnY : ℕ → ℚ
  dirX : ℕ → ℚ
  dirY : ℕ → ℚ
  teleDraw : ℕ → ℚ
  teleX : ℕ → ℚ
  teleY : ℕ → ℚ

-- ==============================
-- Neuron (source lines 32-41)
-- ==============================

/-- An agent: position, integer state, phase, last committed state. -/
structure Neuron where
  x : ℚ
  y : ℚ
  state : ℤ
  phase : Phase
  memory : ℤ
deriving DecidableEq, Repr

/-- Squared Euclidean distance.  The source computes
`math.hypot(self.x - other.x, self.y - other.y)` and only ever compares that
nonnegative value with a bound `r`; `hypot < r` holds iff `0 < r` and the
squared distance is `< r^2`, the exact-rational form used by `Neuron.distLt`. -/
def Neuron.distSq (n m : Neuron) : ℚ := (n.x - m.x)^2 + (n.y - m.y)^2

/-- `n.distance(m) < r` of the source, in squared form. -/
def Neuron.distLt (n m : Neuron) (r : ℚ) : Bool :=
  decide (0 < r) && decide (n.distSq m < r^2)

/-- Initial neuron (source `Neuron.__init__`): random position in the unit
square, random state in {1,2,3}, phase LIQUID, memory = state. -/
def initNeuron (o : Oracle) (i : ℕ) : Neuron :=
  { x := o.initX i, y := o.initY i, state := o.initStateDraw i,
    phase := Phase.LIQUID, memory := o.initStateDraw i }

/-- `neurons = [Neuron() for _ in range(NUM_NEURONS)]` (source line 43). -/
def initNeurons (o : Oracle) : List Neuron :=
  (List.range NUM_NEURONS).map (initNeuron o)

-- ==============================
-- Tension Spider (source lines 49-75)
-- ==============================

structure TensionSpider where
  solid_thresh : ℚ
  plasma_thresh : ℚ
deriving DecidableEq, Repr

/-- The initial classifier `TensionSpider()` with default thresholds
`solid_thresh=0.2`, `plasma_thresh=0.8` (source line 50, instantiated at
line 139). -/
def initSpider : TensionSpider := { solid_thresh := 1/5, plasma_thresh := 4/5 }

/-- `TensionSpider.apply` (source lines 54-65).  The source mutates
`neuron.phase` in place; here the neuron is returned with its new phase.  Only
the `state` fields of the neighbors are read. -/
def TensionSpider.apply (sp : TensionSpider) (neuron : Neuron)
    (neighbors : List Neuron) : Neuron :=
  if neighbors = [] then { neuron with phase := Phase.PLASMA }
  else
    let values : List ℚ := neighbors.map (fun n => (n.state : ℚ))
    let variance : ℚ :=
      (values.map (fun v => (v - values.sum / (values.length : ℚ))^2)).sum
        / (values.length : ℚ)
    if variance < sp.solid_thresh then { neuron with phase := Phase.SOLID }
    else if sp.plasma_thresh < variance then { neuron with phase := Phase.PLASMA }
    else { neuron with phase := Phase.LIQUID }

/-- The replacement spider built by `plasma_mutate_spider` when at least one
neuron is PLASMA: `random.uniform(0.1,0.4)` and `random.uniform(0.6,0.9)`,
each modelled as `a + u*(b-a)` from the oracle's unit draw at step `k`. -/
def mutatedSpider (o : Oracle) (k : ℕ) : TensionSpider :=
  { solid_thresh := 1/10 + o.solidU k * (4/10 - 1/10),
    plasma_thresh := 6/10 + o.plasmaU k * (9/10 - 6/10) }

/-- `plasma_mutate_spider` (source lines 67-75): if any neuron's phase is
PLASMA, return a freshly drawn spider, else return the given spider unchanged
(the source returns the same object). -/
def plasma_mutate_spider (o : Oracle) (k : ℕ) (neurons : List Neuron)
    (spider : TensionSpider) : TensionSpider :=
  if neurons.any (fun n => n.phase = Phase.PLASMA) then mutatedSpider o k
  else spider

-- ==============================
-- Predator (source lines 81-102)
-- ==============================

structure Predator where
  x : ℚ
  y : ℚ
  neurons_eaten : ℕ
  hunger_timer : ℕ
deriving DecidableEq, Repr

/-- `Predator.__init__`: random position, counters zero (source lines 82-86). -/
def Predator.spawn (o : Oracle) (k : ℕ) : Predator :=
  { x := o.spawnX k, y := o.spawnY k, neurons_eaten := 0, hunger_timer := 0 }

/-- `Predator.move` (source lines 88-98): hunger-scaled speed, possible
teleport when tension exceeds 1 and a 0.2-probability event fires, otherwise a
step along the drawn heading with wrap-around; `hunger_timer` increments in
every case.  The source draws the heading before the teleport test; with the
per-step indexed oracle the draw order is immaterial. -/
def Predator.move (p : Predator) (o : Oracle) (k : ℕ) : Predator :=
  let tension : ℚ := (p.hunger_timer : ℚ) / 50
  let speed : ℚ := PREDATOR_SPEED * (1 + tension * 2)
  if 1 < tension ∧ o.teleDraw k < 1/5 then
    { p with x := o.teleX k, y := o.teleY k, hunger_timer := p.hunger_timer + 1 }
  else
    { p with x := fmod1 (p.x + speed * o.dirX k),
             y := fmod1 (p.y + speed * o.dirY k),
             hunger_timer := p.hunger_timer + 1 }

/-- `n.distance(predator) < r` of the source (line 209), in squared form. -/
def Neuron.distLtP (n : Neuron) (p : Predator) (r : ℚ) : Bool :=
  decide (0 < r) && decide ((n.x - p.x)^2 + (n.y - p.y)^2 < r^2)

-- ==============================
-- Cluster detection (source lines 111-127)
-- ==============================

/-- The source's adjacency test inside `detect_clusters`: the candidate `j`
is unvisited, has the same state as the *seed* neuron `n`, and is within
`radius` of the *seed* (source line 123 compares against `n`, the seed of the
current cluster, not against the popped worklist element `neurons[idx]`). -/
def seedNear (neurons : List Neuron) (seed : Neuron) (radius : ℚ) (j : ℕ) : Bool :=
  match neurons.get? j with
  | some m => decide (seed.state = m.state) && seed.distLt m radius
  | none => false

/-- The inner `while to_check:` loop of `detect_clusters`.  Python pops from
the end of the worklist and appends at the end; the loop terminates because
every pop marks its index visited and appended indices are unvisited, and the
`fuel` argument (instantiated generously by the caller) bounds the number of
iterations without being reached on the inputs considered here. -/
def clusterLoop (neurons : List Neuron) (radius : ℚ) (seed : Neuron) :
    ℕ → Finset ℕ → Finset ℕ → List ℕ → Finset ℕ × Finset ℕ
  | 0, visited, cluster, _ => (visited, cluster)
  | fuel + 1, visited, cluster, toCheck =>
    match toCheck.getLast? with
    | none => (visited, cluster)
    | some idx =>
      let visited2 := insert idx visited
      let news := (List.range neurons.length).filter
        (fun j => decide (j ∉ visited2) && seedNear neurons seed radius j)
      clusterLoop neurons radius seed fuel visited2 (cluster ∪ news.toFinset)
        (toCheck.dropLast ++ news)

/-- The outer `for i, n in enumerate(neurons):` loop of `detect_clusters`. -/
def clusterOuter (neurons : List Neuron) (radius : ℚ) :
    List ℕ → Finset ℕ → List (Finset ℕ) → List (Finset ℕ)
  | [], _, clusters => clusters.reverse
  | i :: rest, visited, clusters =>
    if i ∈ visited then clusterOuter neurons radius rest visited clusters
    else
      match neurons.get? i with
      | none => clusterOuter neurons radius rest visited clusters
      | some n =>
        let res := clusterLoop neurons radius n
          ((neurons.length + 1) * (neurons.length + 1) * (neurons.length + 1))
          visited {i} [i]
        clusterOuter neurons radius rest res.1 (res.2 :: clusters)

/-- `detect_clusters(neurons, radius)` (source lines 111-127), returning the
list of clusters as sets of indices into `neurons`. -/
def detect_clusters (neurons : List Neuron) (radius : ℚ) : List (Finset ℕ) :=
  clusterOuter neurons radius (List.range neurons.length) ∅ []

-- ==============================
-- The per-step update (source lines 145-238)
-- ==============================

/-- The poke event (source lines 150-153): at step `POKE_STEP` force neuron
`POKE_NEURON` to state `POKE_VALUE` and phase LIQUID.  Python would raise
`IndexError` if the index were out of range; in the actual run the population
still has its initial size at step 50 (the predator first appears at step
100), so the guard below is never the deciding branch there. -/
def pokeAt (k : ℕ) (ns : List Neuron) : List Neuron :=
  if k = POKE_STEP then
    match ns.get? POKE_NEURON with
    | some n => ns.set POKE_NEURON { n with state := POKE_VALUE, phase := Phase.LIQUID }
    | none => ns
  else ns

/-- Predator spawn logic (source lines 156-161): when the countdown is `≤ 0`
a fresh predator is instantiated (whether or not one already exists) and the
countdown resets; otherwise the countdown decrements. -/
def spawnStep (o : Oracle) (k : ℕ) (pred : Option Predator) (t : ℤ) :
    Option Predator × ℤ :=
  if t ≤ 0 then (some (Predator.spawn o k), PREDATOR_INTERVAL) else (pred, t - 1)

/-- Neighborhood discovery (source lines 164-167): for each index `i`, the
indices `j ≠ i` whose neuron lies strictly within `RADIUS` of neuron `i`,
in list order. -/
def neighborhoods (ns : List Neuron) : List (List ℕ) :=
  (List.range ns.length).map (fun i =>
    (List.range ns.length).filter (fun j =>
      match ns.get? i, ns.get? j with
      | some n, some m => decide (j ≠ i) && n.distLt m RADIUS
      | _, _ => false))

/-- The neighbor neurons of index `i` looked up in the current list `ns`. -/
def nbrsOf (nb : List (List ℕ)) (ns : List Neuron) (i : ℕ) : List Neuron :=
  (nb.getD i []).filterMap ns.get?

/-- Phase updates (source lines 170-171).  The source calls `spider.apply`
on each neuron in turn, mutating only phases; since `apply` reads only the
neighbors' `state` fields, mapping over the start-of-pass list is the same
function. -/
def classifyPass (sp : TensionSpider) (ns : List Neuron)
    (nb : List (List ℕ)) : List Neuron :=
  ns.mapIdx (fun i n => sp.apply n (nbrsOf nb ns i))

def clamp13 (s : ℤ) : ℤ := max 1 (min 3 s)

/-- One iteration of the state-update loop (source lines 177-187) applied to
index `i` of the current list `ns`: the neighbor states are read from `ns` as
it stands when index `i` is processed (the source loop mutates the shared
neuron objects in place). -/
def stateStepAt (o : Oracle) (k : ℕ) (nb : List (List ℕ))
    (ns : List Neuron) (i : ℕ) : List Neuron :=
  match ns.get? i with
  | none => ns
  | some n =>
    let nbrs := nbrsOf nb ns i
    let s1 : ℤ :=
      if n.phase = Phase.PLASMA then o.plasmaDraw k i
      else if n.phase = Phase.LIQUID ∧ nbrs ≠ [] then
        clamp13 (pyRound ((nbrs.map (fun m => (m.state : ℚ))).sum
          / (nbrs.length : ℚ)) + o.choiceDraw k i)
      else if n.phase = Phase.SOLID then n.memory
      else n.state
    ns.set i { n with state := s1, memory := s1 }

/-- State updates (source lines 177-187): the loop body above applied at
indices `0, 1, ...` in order on the shared list. -/
def statePass (o : Oracle) (k : ℕ) (nb : List (List ℕ))
    (ns : List Neuron) : List Neuron :=
  (List.range ns.length).foldl (stateStepAt o k nb) ns

/-- One iteration of the spatial self-organization loop (source lines
190-202) at index `i`: fold the drift contributions of the neighbors (read
from the current list) into neuron `i`'s position, then add noise and wrap. -/
def spatialStepAt (o : Oracle) (k : ℕ) (nb : List (List ℕ))
    (ns : List Neuron) (i : ℕ) : List Neuron :=
  match ns.get? i with
  | none => ns
  | some n =>
    let pos := (nb.getD i []).foldl (fun (q : ℚ × ℚ) j =>
      match ns.get? j with
      | none => q
      | some m =>
        let dx := m.x - q.1
        let dy := m.y - q.2
        if n.state = m.state then (q.1 + DRIFT * dx, q.2 + DRIFT * dy)
        else (q.1 - DRIFT * dx, q.2 - DRIFT * dy)) (n.x, n.y)
    ns.set i { n with
      x := fmod1 (pos.1 + NOISE * (o.noiseX k i - 1/2)),
      y := fmod1 (pos.2 + NOISE * (o.noiseY k i - 1/2)) }

/-- Spatial self-organization (source lines 190-202), sequential over the
shared list like the source loop. -/
def spatialPass (o : Oracle) (k : ℕ) (nb : List (List ℕ))
    (ns : List Neuron) : List Neuron :=
  (List.range ns.length).foldl (spatialStepAt o k nb) ns

/-- Predator interaction (source lines 205-213): if a predator exists it
moves, then every neuron strictly within `PREDATOR_RADIUS` of it is eaten
(removed; `neurons_eaten` increments once per eaten neuron and `hunger_timer`
resets to 0 on any meal) and the survivors are kept in order. -/
def predation (o : Oracle) (k : ℕ) (ns : List Neuron) :
    Option Predator → List Neuron × Option Predator
  | none => (ns, none)
  | some p =>
    let p1 := p.move o k
    let eaten := (ns.filter (fun n => n.distLtP p1 PREDATOR_RADIUS)).length
    let remaining := ns.filter (fun n => !(n.distLtP p1 PREDATOR_RADIUS))
    (remaining, some { p1 with
      neurons_eaten := p1.neurons_eaten + eaten,
      hunger_timer := if eaten = 0 then p1.hunger_timer else 0 })

/-- The whole mutable state of the simulation script: the neuron population,
the optional predator, the classifier, and the spawn countdown (source
globals `neurons`, `predator`, `spider`, `predator_timer`). -/
structure SimState where
  neurons : List Neuron
  predator : Option Predator
  spider : TensionSpider
  predatorTimer : ℤ
deriving DecidableEq, Repr

/-- The population as classified within a step: poke, neighborhood
discovery, phase classification (source lines 150-171).  This is the
population whose phases `plasma_mutate_spider` inspects. -/
def classifiedNeurons (k : ℕ) (sp : TensionSpider) (ns : List Neuron) :
    List Neuron :=
  let ns0 := pokeAt k ns
  classifyPass sp ns0 (neighborhoods ns0)

/-- The population after the poke, classification, state-update and
spatial-update passes of a step (source lines 150-202), before predation. -/
def neuronPipeline (o : Oracle) (k : ℕ) (sp : TensionSpider)
    (ns : List Neuron) : List Neuron :=
  let ns0 := pokeAt k ns
  let nb := neighborhoods ns0
  let ns2 := statePass o k nb (classifyPass sp ns0 nb)
  spatialPass o k nb ns2

/-- One call of `update(frame)` (source lines 145-238) at step `k`: poke,
predator spawn countdown, neighborhood discovery, phase classification,
classifier mutation, state updates, spatial updates, predator interaction.
Drawing (lines 215-237) has no effect on the simulation state. -/
def update (o : Oracle) (k : ℕ) (s : SimState) : SimState :=
  let pt := spawnStep o k s.predator s.predatorTimer
  let np := predation o k (neuronPipeline o k s.spider s.neurons) pt.1
  { neurons := np.1, predator := np.2,
    spider := plasma_mutate_spider o k (classifiedNeurons k s.spider s.neurons)
      s.spider,
    predatorTimer := pt.2 }

/-- The initial state of the script (source lines 43, 104-105, 139). -/
def initState (o : Oracle) : SimState :=
  { neurons := initNeurons o, predator := none, spider := initSpider,
    predatorTimer := PREDATOR_INTERVAL }

/-- The state before step `k` of the run: `simRun o 0` is the initial state
and `simRun o (k+1) = update o k (simRun o k)`. -/
def simRun (o : Oracle) : ℕ → SimState
  | 0 => initState o
  | k + 1 => update o k (simRun o k)

-- ==============================
-- Spec-words variants for the refinement comparison of the snapshot claim
-- ==============================

/-- The state-update pass as the spec words it for the snapshot discipline
(refinement comparison): every agent's rule reads the neighbor states from the
single start-of-pass list `ns`, never from partially updated agents.  The
branch structure is the same as `stateStepAt`. -/
def statePassFrozen (o : Oracle) (k : ℕ) (nb : List (List ℕ))
    (ns : List Neuron) : List Neuron :=
  ns.mapIdx (fun i n =>
    let nbrs := nbrsOf nb ns i
    let s1 : ℤ :=
      if n.phase = Phase.PLASMA then o.plasmaDraw k i
      else if n.phase = Phase.LIQUID ∧ nbrs ≠ [] then
        clamp13 (pyRound ((nbrs.map (fun m => (m.state : ℚ))).sum
          / (nbrs.length : ℚ)) + o.choiceDraw k i)
      else if n.phase = Phase.SOLID then n.memory
      else n.state
    { n with state := s1, memory := s1 })

/-- The spatial step with the same-state comparison taken against a frozen
snapshot `snap` of the states (spec-words variant for the refinement
comparison); positions are handled exactly as in `spatialStepAt`. -/
def spatialStepAtSnap (o : Oracle) (k : ℕ) (nb : List (List ℕ))
    (snap : List Neuron) (ns : List Neuron) (i : ℕ) : List Neuron :=
  match ns.get? i with
  | none => ns
  | some n =>
    let pos := (nb.getD i []).foldl (fun (q : ℚ × ℚ) j =>
      match ns.get? j with
      | none => q
      | some m =>
        let dx := m.x - q.1
        let dy := m.y - q.2
        let sameState : Bool :=
          match snap.get? i, snap.get? j with
          | some a, some b => decide (a.state = b.state)
          | _, _ => decide (n.state = m.state)
        if sameState then (q.1 + DRIFT * dx, q.2 + DRIFT * dy)
        else (q.1 - DRIFT * dx, q.2 - DRIFT * dy)) (n.x, n.y)
    ns.set i { n with
      x := fmod1 (pos.1 + NOISE * (o.noiseX k i - 1/2)),
      y := fmod1 (pos.2 + NOISE * (o.noiseY k i - 1/2)) }

/-- Spatial pass comparing states against the frozen snapshot `snap`. -/
def spatialPassFrozen (o : Oracle) (k : ℕ) (nb : List (List ℕ))
    (snap : List Neuron) (ns : List Neuron) : List Neuron :=
  (List.range ns.length).foldl (spatialStepAtSnap o k nb snap) ns

/-- The step as the spec's snapshot discipline describes it: identical to
`update` except that the state-update pass and the spatial pass's same-state
test read the states every agent had when the step began (the post-poke,
pre-state-update snapshot).  Used only to compare against `update`. -/
def updateFrozen (o : Oracle) (k : ℕ) (s : SimState) : SimState :=
  let ns0 := pokeAt k s.neurons
  let pt := spawnStep o k s.predator s.predatorTimer
  let nb := neighborhoods ns0
  let ns1 := classifyPass s.spider ns0 nb
  let spider2 := plasma_mutate_spider o k ns1 s.spider
  let ns2 := statePassFrozen o k nb ns1
  let ns3 := spatialPassFrozen o k nb ns1 ns2
  let np := predation o k ns3 pt.1
  { neurons := np.1, predator := np.2, spider := spider2,
    predatorTimer := pt.2 }

-- ==============================
-- Same-state within-radius adjacency (for the cluster claim)
-- ==============================

/-- Same-state, strictly-within-radius adjacency between the neurons at
indices `i` and `j` — the edge relation of the spec's connected-component
description of `detect_clusters`. -/
def sameStateNear (ns : List Neuron) (r : ℚ) (i j : ℕ) : Bool :=
  match ns.get? i, ns.get? j with
  | some n, some m => decide (n.state = m.state) && n.distLt m r
  | _, _ => false

-- ==============================
-- Configuration validation (spec sections 6 and 7)
-- ==============================

/-- Modelled from the spec: the caller-supplied configuration record of
section 6 ("population size, step count, neighbor radius, drift coefficient,
noise amplitude, poke step/target/value, predator spawn interval/speed/capture
radius, classifier initial thresholds").  The script in `src` hard-codes these
as module constants and has no construction step, so the record is taken from
the spec's words. -/
structure Config where
  population_size : ℤ
  step_count : ℕ
  neighbor_radius : ℚ
  drift : ℚ
  noise : ℚ
  poke_step : ℕ
  poke_target : ℤ
  poke_value : ℤ
  predator_interval : ℤ
  predator_speed : ℚ
  predator_capture_radius : ℚ
  solid_threshold : ℚ
  plasma_threshold : ℚ
deriving DecidableEq, Repr

/-- Modelled from the spec: the construction-time failure of section 7. -/
inductive ConfigurationError where
  | nonpositivePopulation
  | negativeRadius
  | negativeDrift
  | negativeNoise
  | pokeTargetOutOfRange
deriving DecidableEq, Repr

/-- Modelled from the spec: validation at construction (section 7:
"Population size ≤ 0, negative radius/drift/noise, or an out-of-range poke
target index → fails with ConfigurationError, never silently clamped").  The
script in `src` has no such code; the definition follows the spec's words and
returns the configuration unchanged when it is accepted. -/
def validateConfig (cfg : Config) : Except ConfigurationError Config :=
  if cfg.population_size ≤ 0 then .error .nonpositivePopulation
  else if cfg.neighbor_radius < 0 then .error .negativeRadius
  else if cfg.drift < 0 then .error .negativeDrift
  else if cfg.noise < 0 then .error .negativeNoise
  else if cfg.poke_target < 0 ∨ cfg.population_size ≤ cfg.poke_target then
    .error .pokeTargetOutOfRange
  else .ok cfg

/-- A configuration is invalid exactly when one of the spec's section-7
conditions holds. -/
def Config.invalid (cfg : Config) : Prop :=
  cfg.population_size ≤ 0 ∨ cfg.neighbor_radius < 0 ∨ cfg.drift < 0 ∨
    cfg.noise < 0 ∨ cfg.poke_target < 0 ∨ cfg.population_size ≤ cfg.poke_target

instance (cfg : Config) : Decidable cfg.invalid := by
  unfold Config.invalid; infer_instance

-- ==============================
-- Concrete oracles used by witnesses and counterexamples
-- ==============================

/-- A fully constant oracle: all agents start at the origin with state 1, all
noise draws are the midpoint 1/2 (zero displacement), redraws return 1, choice
draws 0, unit draws 0, predators spawn at (1/2, 1/2) and always head straight
down without teleporting.  Every value is one the source generator can
produce. -/
def o0 : Oracle where
  initX := fun _ => 0
  initY := fun _ => 0
  initStateDraw := fun _ => 1
  plasmaDraw := fun _ _ => 1
  choiceDraw := fun _ _ => 0
  noiseX := fun _ _ => 1/2
  noiseY := fun _ _ => 1/2
  solidU := fun _ => 0
  plasmaU := fun _ => 0
  spawnX := fun _ => 1/2
  spawnY := fun _ => 1/2
  dirX := fun _ => 0
  dirY := fun _ => -1
  teleDraw := fun _ => 1
  teleX := fun _ => 0
  teleY := fun _ => 0

/-- Like `o0` but the predator that spawns at step 100 appears at
(0, 3/50), one move away from the origin where all neurons sit, so that it
eats the whole population at step 100; the next spawn (step 201) is at
(1/2, 1/2) again. -/
def oEat : Oracle :=
  { o0 with
    spawnX := fun k => if k = 100 then 0 else 1/2,
    spawnY := fun k => if k = 100 then 3/50 else 1/2 }

/-- The oracle exhibiting the in-step mutation visibility: neurons 0, 1, 2
start mutually within RADIUS with states 2, 1, 3, everyone else starts far
away at (4/5, 4/5) with state 1; neuron 0's PLASMA redraw returns 3 and all
choice draws are 0. -/
def oSnap : Oracle :=
  { o0 with
    initX := fun i => if i = 0 then 1/10 else if i = 1 then 3/20 else
      if i = 2 then 1/10 else 4/5,
    initY := fun i => if i = 0 then 1/10 else if i = 1 then 1/10 else
      if i = 2 then 3/20 else 4/5,
    initStateDraw := fun i => if i = 0 then 2 else if i = 1 then 1 else
      if i = 2 then 3 else 1,
    plasmaDraw := fun _ _ => 3 }

-- ==============================
-- Concrete neurons, populations, predators, states and configurations used
-- by the witnesses and counterexamples below
-- ==============================
def wPred : Predator := { x := 0, y := 0, neurons_eaten := 4, hunger_timer := 7 }

def wStateA : SimState :=
  { neurons := [], predator := some wPred, spider := initSpider,
    predatorTimer := 0 }

def wStateB : SimState :=
  { neurons := [], predator := none, spider := initSpider, predatorTimer := 0 }

def wStateC : SimState :=
  { neurons := [], predator := some wPred, spider := initSpider,
    predatorTimer := 5 }

/-- All agents of the `oEat` (and `o0`) run start at the origin with state 1. -/
def n0L : Neuron := { x := 0, y := 0, state := 1, phase := Phase.LIQUID, memory := 1 }

def n0S : Neuron := { n0L with phase := Phase.SOLID }

def pop0L : List Neuron := List.replicate 20 n0L

def pop0S : List Neuron := List.replicate 20 n0S

def pEat : Predator := { x := 0, y := 1/100, neurons_eaten := 20, hunger_timer := 0 }

def nA : Neuron := { x := 0, y := 0, state := 1, phase := Phase.LIQUID, memory := 1 }

def nB : Neuron := { nA with x := 1/5 }

def nC : Neuron := { nA with x := 2/5 }

/-- The source's own constant configuration, with population size zeroed out
to make it invalid. -/
def badConfig : Config :=
  { population_size := 0, step_count := 400, neighbor_radius := 1/4,
    drift := 1/100, noise := 1/20, poke_step := 50, poke_target := 5,
    poke_value := 3, predator_interval := 100, predator_speed := 1/20,
    predator_capture_radius := 1/20, solid_threshold := 1/5,
    plasma_threshold := 4/5 }

/-- The phase assigned by the if-chain of `TensionSpider.apply` (source lines
55-65), as a function of the list of neighbor state values alone. -/
def phaseOfValues (sp : TensionSpider) (values : List ℚ) : Phase :=
  if values = [] then Phase.PLASMA
  else
    let variance : ℚ :=
      (values.map (fun v => (v - values.sum / (values.length : ℚ))^2)).sum
        / (values.length : ℚ)
    if variance < sp.solid_thresh then Phase.SOLID
    else if sp.plasma_thresh < variance then Phase.PLASMA
    else Phase.LIQUID

/-- Population variance of a list of values: mean squared deviation from the
mean, dividing by the count (not count - 1) — the quantity computed inline at
source line 59. -/
def populationVariance (values : List ℚ) : ℚ :=
  (values.map (fun v => (v - values.sum / (values.length : ℚ))^2)).sum
    / (values.length : ℚ)

def nS3 : Neuron := { nA with state := 3 }

def wStateE : SimState :=
  { neurons := [], predator := none, spider := initSpider,
    predatorTimer := 7 }

/-- Mid-step range invariant: state and memory lie in {1,2,3}. -/
def neuronRangeOK (n : Neuron) : Prop :=
  1 ≤ n.state ∧ n.state ≤ 3 ∧ 1 ≤ n.memory ∧ n.memory ≤ 3

/-- End-of-step invariant: state in {1,2,3} and memory committed to state. -/
def neuronFullOK (n : Neuron) : Prop :=
  (1 ≤ n.state ∧ n.state ≤ 3) ∧ n.memory = n.state

def wN1 : Neuron := { x := 0, y := 0, state := 1, phase := Phase.PLASMA, memory := 1 }

def wN2 : Neuron := { x := 0, y := 1/10, state := 2, phase := Phase.LIQUID, memory := 2 }

-- ==============================
-- Basic projection and step lemmas
-- ==============================

theorem update_predatorTimer (o : Oracle) (k : ℕ) (s : SimState) :
    (update o k s).predatorTimer = (spawnStep o k s.predator s.predatorTimer).2 :=
  rfl

theorem update_predator (o : Oracle) (k : ℕ) (s : SimState) :
    (update o k s).predator =
      (predation o k (neuronPipeline o k s.spider s.neurons)
        (spawnStep o k s.predator s.predatorTimer).1).2 :=
  rfl

theorem update_neurons (o : Oracle) (k : ℕ) (s : SimState) :
    (update o k s).neurons =
      (predation o k (neuronPipeline o k s.spider s.neurons)
        (spawnStep o k s.predator s.predatorTimer).1).1 :=
  rfl

theorem update_spider (o : Oracle) (k : ℕ) (s : SimState) :
    (update o k s).spider =
      plasma_mutate_spider o k (classifiedNeurons k s.spider s.neurons)
        s.spider :=
  rfl

theorem spawnStep_snd (o : Oracle) (k : ℕ) (p : Option Predator) (t : ℤ) :
    (spawnStep o k p t).2 = if t ≤ 0 then PREDATOR_INTERVAL else t - 1 := by
  unfold spawnStep
  split <;> rfl

theorem spawnStep_fst_isSome (o : Oracle) (k : ℕ) (p : Option Predator)
    (t : ℤ) :
    (spawnStep o k p t).1.isSome = (decide (t ≤ 0) || p.isSome) := by
  unfold spawnStep
  split <;> simp_all

theorem spawnStep_fst_of_pos (o : Oracle) (k : ℕ) (p : Option Predator)
    (t : ℤ) (ht : 0 < t) : (spawnStep o k p t).1 = p := by
  unfold spawnStep
  rw [if_neg (by omega)]

theorem spawnStep_fst_of_nonpos (o : Oracle) (k : ℕ) (p : Option Predator)
    (t : ℤ) (ht : t ≤ 0) : (spawnStep o k p t).1 = some (Predator.spawn o k) := by
  unfold spawnStep
  rw [if_pos ht]

theorem Predator.move_neurons_eaten (p : Predator) (o : Oracle) (k : ℕ) :
    (p.move o k).neurons_eaten = p.neurons_eaten := by
  unfold Predator.move
  dsimp only
  split <;> rfl

theorem predation_snd_isSome (o : Oracle) (k : ℕ) (ns : List Neuron)
    (p : Option Predator) : (predation o k ns p).2.isSome = p.isSome := by
  cases p <;> simp [predation]

theorem predation_fst_length_le (o : Oracle) (k : ℕ) (ns : List Neuron)
    (p : Option Predator) : (predation o k ns p).1.length ≤ ns.length := by
  cases p with
  | none => simp [predation]
  | some q => simpa [predation] using List.length_filter_le _ ns

theorem predation_some (o : Oracle) (k : ℕ) (ns : List Neuron) (p : Predator) :
    ∃ p2, (predation o k ns (some p)).2 = some p2 ∧
      p.neurons_eaten ≤ p2.neurons_eaten := by
  refine ⟨_, rfl, ?_⟩
  simp [Predator.move_neurons_eaten]

-- ==============================
-- The spawn countdown over the run (independent of the oracle)
-- ==============================

/-- Closed form of the spawn countdown: it decrements every step whenever it
is positive and resets to `PREDATOR_INTERVAL` whenever it is `≤ 0`, whether or
not a predator exists, so after `k` steps it equals `100 - k % 101`. -/
theorem simRun_predatorTimer (o : Oracle) (k : ℕ) :
    (simRun o k).predatorTimer = 100 - ((k % 101 : ℕ) : ℤ) := by
  induction k with
  | zero => rfl
  | succ k ih =>
    show (update o k (simRun o k)).predatorTimer = _
    rw [update_predatorTimer, spawnStep_snd, ih]
    have h101 : PREDATOR_INTERVAL = 100 := rfl
    rw [h101]
    split <;> omega

/-- A predator exists exactly from step 101 on: the first spawn happens during
the step of index 100 (when the countdown has reached 0), and from then on the
predator slot is always occupied. -/
theorem simRun_predator_isSome (o : Oracle) (k : ℕ) :
    (simRun o k).predator.isSome = true ↔ 101 ≤ k := by
  induction k with
  | zero => simp [simRun, initState]
  | succ k ih =>
    show (update o k (simRun o k)).predator.isSome = true ↔ _
    rw [update_predator, predation_snd_isSome, spawnStep_fst_isSome,
      simRun_predatorTimer]
    simp only [Bool.or_eq_true, decide_eq_true_eq]
    constructor
    · rintro (h | h)
      · omega
      · have := ih.mp h
        omega
    · intro h
      by_cases hk : 101 ≤ k
      · right
        exact ih.mpr hk
      · left
        omega

-- ==============================
-- Length preservation through the passes
-- ==============================

theorem pokeAt_length (k : ℕ) (ns : List Neuron) :
    (pokeAt k ns).length = ns.length := by
  unfold pokeAt
  split
  · split <;> simp
  · rfl

theorem classifyPass_length (sp : TensionSpider) (ns : List Neuron)
    (nb : List (List ℕ)) : (classifyPass sp ns nb).length = ns.length := by
  simp [classifyPass]

theorem stateStepAt_length (o : Oracle) (k : ℕ) (nb : List (List ℕ))
    (ns : List Neuron) (i : ℕ) : (stateStepAt o k nb ns i).length = ns.length := by
  unfold stateStepAt
  split <;> simp

theorem foldl_stateStepAt_length (o : Oracle) (k : ℕ) (nb : List (List ℕ))
    (l : List ℕ) (ns : List Neuron) :
    (l.foldl (stateStepAt o k nb) ns).length = ns.length := by
  induction l generalizing ns with
  | nil => rfl
  | cons i l ih => rw [List.foldl_cons, ih, stateStepAt_length]

theorem statePass_length (o : Oracle) (k : ℕ) (nb : List (List ℕ))
    (ns : List Neuron) : (statePass o k nb ns).length = ns.length := by
  unfold statePass
  rw [foldl_stateStepAt_length]

theorem spatialStepAt_length (o : Oracle) (k : ℕ) (nb : List (List ℕ))
    (ns : List Neuron) (i : ℕ) :
    (spatialStepAt o k nb ns i).length = ns.length := by
  unfold spatialStepAt
  split <;> simp

theorem foldl_spatialStepAt_length (o : Oracle) (k : ℕ) (nb : List (List ℕ))
    (l : List ℕ) (ns : List Neuron) :
    (l.foldl (spatialStepAt o k nb) ns).length = ns.length := by
  induction l generalizing ns with
  | nil => rfl
  | cons i l ih => rw [List.foldl_cons, ih, spatialStepAt_length]

theorem spatialPass_length (o : Oracle) (k : ℕ) (nb : List (List ℕ))
    (ns : List Neuron) : (spatialPass o k nb ns).length = ns.length := by
  unfold spatialPass
  rw [foldl_spatialStepAt_length]

theorem neuronPipeline_length (o : Oracle) (k : ℕ) (sp : TensionSpider)
    (ns : List Neuron) : (neuronPipeline o k sp ns).length = ns.length := by
  unfold neuronPipeline
  rw [spatialPass_length, statePass_length, classifyPass_length, pokeAt_length]

-- ==============================
-- Claim C1: predator spawn countdown and persistence
-- ==============================

/-- C1 (amended).  The spawn countdown is decremented once per step whenever
it is positive, regardless of whether a predator exists, and resets to
`PREDATOR_INTERVAL` whenever it has reached `≤ 0`; hence over any run it
follows the closed form `100 - k % 101`, and a predator exists exactly from
step 101 onwards.  When the countdown has reached `≤ 0`, the predator produced
by the step does not depend on the predator already present: a fresh predator
replaces it. -/
theorem spawn_countdown_amended :
    (∀ (o : Oracle) (k : ℕ),
      (simRun o k).predatorTimer = 100 - ((k % 101 : ℕ) : ℤ)) ∧
    (∀ (o : Oracle) (k : ℕ),
      (simRun o k).predator.isSome = true ↔ 101 ≤ k) ∧
    (∀ (o : Oracle) (k : ℕ) (s s2 : SimState), s.neurons = s2.neurons →
      s.spider = s2.spider → s.predatorTimer ≤ 0 → s2.predatorTimer ≤ 0 →
      (update o k s).predator = (update o k s2).predator) := by
  refine ⟨simRun_predatorTimer, simRun_predator_isSome, ?_⟩
  intro o k s s2 hns hsp ht ht2
  rw [update_predator, update_predator, spawnStep_fst_of_nonpos _ _ _ _ ht,
    spawnStep_fst_of_nonpos _ _ _ _ ht2, hns, hsp]

/-- C1 counterexample: in the run driven by the constant oracle `o0`, a
predator exists before step 101 runs, and that step still decrements the
countdown from 100 to 99 — refuting "decremented only while no predator
exists". -/
theorem spawn_countdown_counterexample :
    (simRun o0 101).predator.isSome = true ∧
    (simRun o0 101).predatorTimer = 100 ∧
    (simRun o0 102).predatorTimer = 99 := by
  refine ⟨(simRun_predator_isSome o0 101).mpr (by norm_num), ?_, ?_⟩
  · rw [simRun_predatorTimer]
    norm_num
  · rw [simRun_predatorTimer]
    norm_num

/-- Witness for the hypothesis-bearing part of `spawn_countdown_amended`:
with the countdown at 0, two states that differ only in the predator slot
produce the same next predator. -/
theorem spawn_countdown_amended_witness :
    (update o0 0 wStateA).predator = (update o0 0 wStateB).predator :=
  spawn_countdown_amended.2.2 o0 0 wStateA wStateB rfl rfl (by decide)
    (by decide)

-- ==============================
-- Claim C2: monotonicity of predation
-- ==============================

/-- C2 (amended).  Across any single step: the population never grows, and —
as long as the step is not a (re)spawn step, i.e. the countdown is still
positive — the predator's cumulative eaten count never decreases.  (At a
respawn step the count restarts at 0 with the replacement predator, which is
what the counterexample exhibits.) -/
theorem predation_monotonic_amended (o : Oracle) (k : ℕ) (s : SimState) :
    (update o k s).neurons.length ≤ s.neurons.length ∧
    (0 < s.predatorTimer → ∀ p, s.predator = some p →
      ∃ p2, (update o k s).predator = some p2 ∧
        p.neurons_eaten ≤ p2.neurons_eaten) := by
  constructor
  · rw [update_neurons]
    calc (predation o k (neuronPipeline o k s.spider s.neurons)
          (spawnStep o k s.predator s.predatorTimer).1).1.length
        ≤ (neuronPipeline o k s.spider s.neurons).length :=
          predation_fst_length_le _ _ _ _
      _ = s.neurons.length := neuronPipeline_length _ _ _ _
  · intro ht p hp
    rw [update_predator, spawnStep_fst_of_pos _ _ _ _ ht, hp]
    exact predation_some _ _ _ _

/-- Witness for `predation_monotonic_amended` at a concrete state: countdown
5, a predator that has eaten 4, an empty population. -/
theorem predation_monotonic_witness :
    (update o0 0 wStateC).neurons.length ≤ wStateC.neurons.length ∧
    ∃ p2, (update o0 0 wStateC).predator = some p2 ∧ 4 ≤ p2.neurons_eaten := by
  refine ⟨(predation_monotonic_amended o0 0 wStateC).1, ?_⟩
  obtain ⟨p2, h1, h2⟩ :=
    (predation_monotonic_amended o0 0 wStateC).2 (by decide) wPred rfl
  exact ⟨p2, h1, h2⟩

-- ==============================
-- Oracle congruence for the passes (the passes read only the draws of
-- their own step)
-- ==============================

theorem stateStepAt_congr (o o2 : Oracle) (k k2 : ℕ) (nb : List (List ℕ))
    (hp : ∀ i, o.plasmaDraw k i = o2.plasmaDraw k2 i)
    (hc : ∀ i, o.choiceDraw k i = o2.choiceDraw k2 i) (ns : List Neuron) (i : ℕ) :
    stateStepAt o k nb ns i = stateStepAt o2 k2 nb ns i := by
  unfold stateStepAt
  cases h : ns.get? i with
  | none => rfl
  | some n => simp only [hp, hc]

theorem statePass_congr (o o2 : Oracle) (k k2 : ℕ)
    (hp : ∀ i, o.plasmaDraw k i = o2.plasmaDraw k2 i)
    (hc : ∀ i, o.choiceDraw k i = o2.choiceDraw k2 i) (nb : List (List ℕ))
    (ns : List Neuron) : statePass o k nb ns = statePass o2 k2 nb ns := by
  unfold statePass
  generalize List.range ns.length = l
  induction l generalizing ns with
  | nil => rfl
  | cons j l ih =>
    rw [List.foldl_cons, List.foldl_cons,
      stateStepAt_congr o o2 k k2 nb hp hc ns j, ih]

theorem spatialStepAt_congr (o o2 : Oracle) (k k2 : ℕ) (nb : List (List ℕ))
    (hx : ∀ i, o.noiseX k i = o2.noiseX k2 i)
    (hy : ∀ i, o.noiseY k i = o2.noiseY k2 i) (ns : List Neuron) (i : ℕ) :
    spatialStepAt o k nb ns i = spatialStepAt o2 k2 nb ns i := by
  unfold spatialStepAt
  cases h : ns.get? i with
  | none => rfl
  | some n => simp only [hx, hy]

theorem spatialPass_congr (o o2 : Oracle) (k k2 : ℕ)
    (hx : ∀ i, o.noiseX k i = o2.noiseX k2 i)
    (hy : ∀ i, o.noiseY k i = o2.noiseY k2 i) (nb : List (List ℕ))
    (ns : List Neuron) : spatialPass o k nb ns = spatialPass o2 k2 nb ns := by
  unfold spatialPass
  generalize List.range ns.length = l
  induction l generalizing ns with
  | nil => rfl
  | cons j l ih =>
    rw [List.foldl_cons, List.foldl_cons,
      spatialStepAt_congr o o2 k k2 nb hx hy ns j, ih]

-- ==============================
-- The concrete run driven by oEat, step by step
-- ==============================

set_option maxRecDepth 10000 in
theorem pipeFix (k : ℕ) (hk : k ≠ 50) :
    neuronPipeline oEat k initSpider pop0S = pop0S := by
  have hpoke : pokeAt k pop0S = pop0S := by
    unfold pokeAt
    rw [if_neg (by simpa [POKE_STEP] using hk)]
  show spatialPass oEat k (neighborhoods (pokeAt k pop0S))
      (statePass oEat k (neighborhoods (pokeAt k pop0S))
        (classifyPass initSpider (pokeAt k pop0S)
          (neighborhoods (pokeAt k pop0S)))) = pop0S
  rw [hpoke, statePass_congr oEat oEat k 0 (fun i => rfl) (fun i => rfl),
    spatialPass_congr oEat oEat k 0 (fun i => rfl) (fun i => rfl)]
  with_unfolding_all decide

theorem spiderFix (k : ℕ) (hk : k ≠ 50) :
    plasma_mutate_spider oEat k (classifiedNeurons k initSpider pop0S)
      initSpider = initSpider := by
  have hpoke : pokeAt k pop0S = pop0S := by
    unfold pokeAt
    rw [if_neg (by simpa [POKE_STEP] using hk)]
  have hclass : classifiedNeurons k initSpider pop0S =
      classifyPass initSpider pop0S (neighborhoods pop0S) := by
    show classifyPass initSpider (pokeAt k pop0S)
      (neighborhoods (pokeAt k pop0S)) = _
    rw [hpoke]
  have hany : (classifyPass initSpider pop0S (neighborhoods pop0S)).any
      (fun n => n.phase = Phase.PLASMA) = false := by
    with_unfolding_all decide
  unfold plasma_mutate_spider
  rw [hclass, hany]
  simp

theorem stepFix (k : ℕ) (t : ℤ) (hk : k ≠ 50) (ht : 0 < t) :
    update oEat k ⟨pop0S, none, initSpider, t⟩ =
      ⟨pop0S, none, initSpider, t - 1⟩ := by
  have hspawn : spawnStep oEat k none t = (none, t - 1) := by
    unfold spawnStep
    rw [if_neg (by omega)]
  show (⟨(predation oEat k (neuronPipeline oEat k initSpider pop0S)
        (spawnStep oEat k none t).1).1,
      (predation oEat k (neuronPipeline oEat k initSpider pop0S)
        (spawnStep oEat k none t).1).2,
      plasma_mutate_spider oEat k (classifiedNeurons k initSpider pop0S)
        initSpider,
      (spawnStep oEat k none t).2⟩ : SimState) = _
  rw [hspawn, pipeFix k hk, spiderFix k hk]
  rfl

theorem pokeAt_nil (k : ℕ) : pokeAt k ([] : List Neuron) = [] := by
  unfold pokeAt
  split <;> rfl

theorem classifiedNeurons_length (k : ℕ) (sp : TensionSpider) (ns : List Neuron) :
    (classifiedNeurons k sp ns).length = ns.length := by
  unfold classifiedNeurons
  rw [classifyPass_length, pokeAt_length]

theorem neuronPipeline_nil (o : Oracle) (k : ℕ) (sp : TensionSpider) :
    neuronPipeline o k sp [] = [] :=
  List.eq_nil_of_length_eq_zero (by rw [neuronPipeline_length]; rfl)

theorem classifiedNeurons_nil (k : ℕ) (sp : TensionSpider) :
    classifiedNeurons k sp [] = [] :=
  List.eq_nil_of_length_eq_zero (by rw [classifiedNeurons_length]; rfl)

theorem predation_nil (o : Oracle) (k : ℕ) (p : Predator) :
    predation o k [] (some p) = ([], some (p.move o k)) := by
  unfold predation
  simp

theorem E0 : initState oEat = ⟨pop0L, none, initSpider, 100⟩ := by
  with_unfolding_all decide

set_option maxRecDepth 10000 in
theorem E1 : update oEat 0 ⟨pop0L, none, initSpider, 100⟩ =
    ⟨pop0S, none, initSpider, 99⟩ := by
  with_unfolding_all decide

set_option maxRecDepth 10000 in
theorem pipePoke : neuronPipeline oEat 50 initSpider pop0S = pop0S := by
  with_unfolding_all decide

set_option maxRecDepth 10000 in
theorem spiderPoke :
    plasma_mutate_spider oEat 50 (classifiedNeurons 50 initSpider pop0S)
      initSpider = initSpider := by
  with_unfolding_all decide

theorem stepPoke (t : ℤ) (ht : 0 < t) :
    update oEat 50 ⟨pop0S, none, initSpider, t⟩ =
      ⟨pop0S, none, initSpider, t - 1⟩ := by
  have hspawn : spawnStep oEat 50 none t = (none, t - 1) := by
    unfold spawnStep
    rw [if_neg (by omega)]
  show (⟨(predation oEat 50 (neuronPipeline oEat 50 initSpider pop0S)
        (spawnStep oEat 50 none t).1).1,
      (predation oEat 50 (neuronPipeline oEat 50 initSpider pop0S)
        (spawnStep oEat 50 none t).1).2,
      plasma_mutate_spider oEat 50 (classifiedNeurons 50 initSpider pop0S)
        initSpider,
      (spawnStep oEat 50 none t).2⟩ : SimState) = _
  rw [hspawn, pipePoke, spiderPoke]
  rfl

theorem stepAny (k : ℕ) (t : ℤ) (ht : 0 < t) :
    update oEat k ⟨pop0S, none, initSpider, t⟩ =
      ⟨pop0S, none, initSpider, t - 1⟩ := by
  by_cases hk : k = 50
  · subst hk
    exact stepPoke t ht
  · exact stepFix k t hk ht

theorem simRunEat_phase1 (k : ℕ) (h1 : 1 ≤ k) (h2 : k ≤ 100) :
    simRun oEat k = ⟨pop0S, none, initSpider, 100 - (k : ℤ)⟩ := by
  induction k with
  | zero => omega
  | succ k ih =>
    show update oEat k (simRun oEat k) = _
    by_cases hk0 : k = 0
    · subst hk0
      rw [show simRun oEat 0 = ⟨pop0L, none, initSpider, 100⟩ from E0, E1]
      congr 1
    · rw [ih (by omega) (by omega), stepAny k (100 - (k : ℤ)) (by omega)]
      congr 1
      push_cast
      ring

set_option maxRecDepth 10000 in
theorem E4 : update oEat 100 ⟨pop0S, none, initSpider, 0⟩ =
    ⟨[], some pEat, initSpider, 100⟩ := by
  with_unfolding_all decide

theorem stepEmpty (k : ℕ) (p : Predator) (t : ℤ) (ht : 0 < t) :
    update oEat k ⟨[], some p, initSpider, t⟩ =
      ⟨[], some (p.move oEat k), initSpider, t - 1⟩ := by
  have hspawn : spawnStep oEat k (some p) t = (some p, t - 1) := by
    unfold spawnStep
    rw [if_neg (by omega)]
  show (⟨(predation oEat k (neuronPipeline oEat k initSpider [])
        (spawnStep oEat k (some p) t).1).1,
      (predation oEat k (neuronPipeline oEat k initSpider [])
        (spawnStep oEat k (some p) t).1).2,
      plasma_mutate_spider oEat k (classifiedNeurons k initSpider [])
        initSpider,
      (spawnStep oEat k (some p) t).2⟩ : SimState) = _
  rw [hspawn, neuronPipeline_nil, classifiedNeurons_nil]
  show (⟨(predation oEat k [] (some p)).1, (predation oEat k [] (some p)).2,
      initSpider, t - 1⟩ : SimState) = _
  rw [predation_nil]

theorem simRunEat_phase2 (k : ℕ) (h1 : 101 ≤ k) (h2 : k ≤ 201) :
    ∃ p : Predator, simRun oEat k = ⟨[], some p, initSpider, 201 - (k : ℤ)⟩ ∧
      p.neurons_eaten = 20 := by
  induction k with
  | zero => omega
  | succ k ih =>
    show ∃ p, update oEat k (simRun oEat k) = _ ∧ _
    by_cases hbase : k = 100
    · subst hbase
      rw [simRunEat_phase1 100 (by norm_num) (by norm_num)]
      refine ⟨pEat, ?_, rfl⟩
      rw [show ((100 : ℤ) - ((100 : ℕ) : ℤ)) = 0 by norm_num, E4]
      congr 1
    · obtain ⟨p, hs, he⟩ := ih (by omega) (by omega)
      have harith : (201 : ℤ) - (k : ℤ) - 1 = 201 - ((k + 1 : ℕ) : ℤ) := by
        push_cast
        ring
      rw [hs, stepEmpty k p (201 - (k : ℤ)) (by omega), harith]
      exact ⟨p.move oEat k, rfl, by rw [Predator.move_neurons_eaten, he]⟩

theorem stepRespawn (p : Predator) :
    update oEat 201 ⟨[], some p, initSpider, 0⟩ =
      ⟨[], some ⟨1/2, 9/20, 0, 1⟩, initSpider, 100⟩ := by
  with_unfolding_all rfl

/-- C2 counterexample: in the run driven by `oEat` the predator that spawned
at step 100 immediately eats all 20 neurons, so its cumulative count is 20
before step 201 runs; that step replaces it (countdown at 0) with a fresh
predator whose count is 0 — the cumulative eaten count decreases across the
consecutive steps 201 and 202. -/
theorem eaten_count_counterexample :
    ((simRun oEat 201).predator.map Predator.neurons_eaten = some 20) ∧
    ((simRun oEat 202).predator.map Predator.neurons_eaten = some 0) := by
  obtain ⟨p, hs, he⟩ := simRunEat_phase2 201 (by norm_num) (by norm_num)
  have hs0 : simRun oEat 201 = ⟨[], some p, initSpider, 0⟩ := by
    rw [hs]
    norm_num
  constructor
  · rw [hs0]
    simp [he]
  · show (update oEat 201 (simRun oEat 201)).predator.map _ = _
    rw [hs0, stepRespawn p]
    rfl

-- ==============================
-- Claim C4: detect_clusters is not the connected-component partition
-- ==============================

/-- C4, the code evaluated at the failing input: three same-state agents on a
line at x = 0, 0.2, 0.4 with radius 0.25.  Agents 0-1 and 1-2 are adjacent
(same state, strictly within radius), so all three lie in one connected
component, yet `detect_clusters` returns the partition [{0,1}, {2}]: its inner
worklist loop (source line 123) compares every candidate against the cluster's
seed `n` instead of the popped element `neurons[idx]`, so a cluster never
extends beyond the seed's direct neighbors. -/
theorem detect_clusters_seed_bug :
    detect_clusters [nA, nB, nC] (1/4) = [{0, 1}, {2}] ∧
    sameStateNear [nA, nB, nC] (1/4) 0 1 = true ∧
    sameStateNear [nA, nB, nC] (1/4) 1 2 = true := by
  refine ⟨?_, ?_, ?_⟩ <;> with_unfolding_all decide

-- ==============================
-- Claim C5: configuration validation (spec-modelled)
-- ==============================

/-- C5.  Modelled from the spec (the script has no construction step):
`validateConfig` rejects exactly the invalid configurations of section 7 with
a `ConfigurationError`, and accepts every other configuration unchanged —
never clamped. -/
theorem config_validation (cfg : Config) :
    (cfg.invalid → ∃ e, validateConfig cfg = Except.error e) ∧
    (¬ cfg.invalid → validateConfig cfg = Except.ok cfg) := by
  unfold validateConfig Config.invalid
  constructor
  · intro h
    split_ifs <;> first | exact ⟨_, rfl⟩ | tauto
  · intro h
    split_ifs <;> first | rfl | tauto

/-- Witness for `config_validation`: a population size of 0 is rejected. -/
theorem config_validation_witness :
    ∃ e, validateConfig badConfig = Except.error e :=
  (config_validation badConfig).1 (by decide)

-- ==============================
-- Claims C7 and C10: the classification rule
-- ==============================

theorem apply_phase (sp : TensionSpider) (n : Neuron) (nbrs : List Neuron) :
    (sp.apply n nbrs).phase =
      phaseOfValues sp (nbrs.map (fun m => (m.state : ℚ))) := by
  by_cases h : nbrs = []
  · subst h
    rfl
  · have hmap : List.map (fun m => (m.state : ℚ)) nbrs ≠ [] := by simpa using h
    unfold TensionSpider.apply phaseOfValues
    rw [if_neg h, if_neg hmap]
    dsimp only
    split <;> first | rfl | (split <;> rfl)

theorem apply_state (sp : TensionSpider) (n : Neuron) (nbrs : List Neuron) :
    (sp.apply n nbrs).state = n.state := by
  by_cases h : nbrs = []
  · subst h
    rfl
  · unfold TensionSpider.apply
    rw [if_neg h]
    dsimp only
    split <;> first | rfl | (split <;> rfl)

theorem apply_memory (sp : TensionSpider) (n : Neuron) (nbrs : List Neuron) :
    (sp.apply n nbrs).memory = n.memory := by
  by_cases h : nbrs = []
  · subst h
    rfl
  · unfold TensionSpider.apply
    rw [if_neg h]
    dsimp only
    split <;> first | rfl | (split <;> rfl)

theorem phaseOfValues_perm (sp : TensionSpider) (v1 v2 : List ℚ)
    (h : v1.Perm v2) : phaseOfValues sp v1 = phaseOfValues sp v2 := by
  unfold phaseOfValues
  by_cases h1 : v1 = []
  · subst h1
    rw [if_pos rfl, if_pos h.nil_eq.symm]
  · have h2 : v2 ≠ [] := fun he => h1 (List.Perm.eq_nil (he ▸ h))
    rw [if_neg h1, if_neg h2]
    have hs : v1.sum = v2.sum := h.sum_eq
    have hl : v1.length = v2.length := h.length_eq
    have hv : (v1.map (fun v => (v - v2.sum / (v2.length : ℚ))^2)).sum
        = (v2.map (fun v => (v - v2.sum / (v2.length : ℚ))^2)).sum :=
      (h.map _).sum_eq
    dsimp only
    rw [hs, hl, hv]

theorem phaseOfValues_eq (sp : TensionSpider) (vals : List ℚ) :
    phaseOfValues sp vals =
      if vals = [] then Phase.PLASMA
      else if populationVariance vals < sp.solid_thresh then Phase.SOLID
      else if sp.plasma_thresh < populationVariance vals then Phase.PLASMA
      else Phase.LIQUID := rfl

/-- C7: with an empty neighbor set the assigned phase is PLASMA; otherwise,
with variance the population variance of the neighbor states (divide by
count), the phase is SOLID exactly when variance is below the solid
threshold, PLASMA exactly when it exceeds the plasma threshold, and LIQUID
exactly when it lies between them (thresholds in their reachable order). -/
theorem phase_classification_rule (sp : TensionSpider) (n : Neuron)
    (nbrs : List Neuron) (hord : sp.solid_thresh < sp.plasma_thresh) :
    (nbrs = [] → (sp.apply n nbrs).phase = Phase.PLASMA) ∧
    (nbrs ≠ [] →
      ((sp.apply n nbrs).phase = Phase.SOLID ↔
        populationVariance (nbrs.map (fun m => (m.state : ℚ))) <
          sp.solid_thresh) ∧
      ((sp.apply n nbrs).phase = Phase.PLASMA ↔
        sp.plasma_thresh <
          populationVariance (nbrs.map (fun m => (m.state : ℚ)))) ∧
      ((sp.apply n nbrs).phase = Phase.LIQUID ↔
        sp.solid_thresh ≤
          populationVariance (nbrs.map (fun m => (m.state : ℚ))) ∧
        populationVariance (nbrs.map (fun m => (m.state : ℚ))) ≤
          sp.plasma_thresh)) := by
  constructor
  · intro h
    subst h
    rfl
  · intro h
    have hmap : nbrs.map (fun m => (m.state : ℚ)) ≠ [] := by simpa using h
    rw [apply_phase, phaseOfValues_eq, if_neg hmap]
    by_cases h1 : populationVariance (nbrs.map (fun m => (m.state : ℚ))) <
        sp.solid_thresh
    · rw [if_pos h1]
      refine ⟨⟨fun _ => h1, fun _ => rfl⟩, ⟨?_, ?_⟩, ⟨?_, ?_⟩⟩
      · intro hc
        cases hc
      · intro hc
        exact absurd h1 (by linarith)
      · intro hc
        cases hc
      · rintro ⟨hle, -⟩
        exact absurd h1 (by linarith)
    · rw [if_neg h1]
      by_cases h2 : sp.plasma_thresh <
          populationVariance (nbrs.map (fun m => (m.state : ℚ)))
      · rw [if_pos h2]
        refine ⟨⟨?_, ?_⟩, ⟨fun _ => h2, fun _ => rfl⟩, ⟨?_, ?_⟩⟩
        · intro hc
          cases hc
        · intro hc
          exact absurd hc h1
        · intro hc
          cases hc
        · rintro ⟨-, hle⟩
          exact absurd h2 (by linarith)
      · rw [if_neg h2]
        refine ⟨⟨?_, ?_⟩, ⟨?_, ?_⟩, ⟨?_, ?_⟩⟩
        · intro hc
          cases hc
        · intro hc
          exact absurd hc h1
        · intro hc
          cases hc
        · intro hc
          exact absurd hc h2
        · intro _
          exact ⟨not_lt.mp h1, not_lt.mp h2⟩
        · intro _
          rfl

/-- Witness for `phase_classification_rule`: a neighbor pair with states 1
and 3 has variance 1 > 0.8, so the assigned phase is PLASMA. -/
theorem phase_classification_rule_witness :
    (initSpider.apply nA [nA, nS3]).phase = Phase.PLASMA := by
  refine (((phase_classification_rule initSpider nA [nA, nS3]
    (by norm_num [initSpider])).2 (by simp)).2.1).mpr ?_
  with_unfolding_all decide

/-- C10: the phase assigned by `TensionSpider.apply` depends only on the
multiset of the neighbors' states — the agent's own state, phase, memory and
position (and hence the poke's forced LIQUID phase) cannot influence it. -/
theorem classification_reads_only_neighbor_states (sp : TensionSpider)
    (n1 n2 : Neuron) (nbrs1 nbrs2 : List Neuron)
    (h : (nbrs1.map Neuron.state).Perm (nbrs2.map Neuron.state)) :
    (sp.apply n1 nbrs1).phase = (sp.apply n2 nbrs2).phase := by
  rw [apply_phase, apply_phase]
  apply phaseOfValues_perm
  have h2 := h.map (fun z : ℤ => (z : ℚ))
  simpa [List.map_map, Function.comp] using h2

/-- Witness for `classification_reads_only_neighbor_states`: two calls with
the same neighbor states in swapped order but different own agents agree. -/
theorem classification_reads_only_neighbor_states_witness :
    (initSpider.apply nA [nA, nS3]).phase =
      (initSpider.apply nS3 [nS3, nA]).phase :=
  classification_reads_only_neighbor_states initSpider nA nS3 [nA, nS3]
    [nS3, nA] (by decide)

-- ==============================
-- Claims C6 and C9: classifier mutation and threshold ordering
-- ==============================

theorem plasma_mutate_cases (o : Oracle) (k : ℕ) (ns : List Neuron)
    (sp : TensionSpider) :
    plasma_mutate_spider o k ns sp = sp ∨
    plasma_mutate_spider o k ns sp = mutatedSpider o k := by
  unfold plasma_mutate_spider
  split
  · right
    rfl
  · left
    rfl

theorem mutatedSpider_bands (o : Oracle) (k : ℕ)
    (hs0 : 0 ≤ o.solidU k) (hs1 : o.solidU k ≤ 1)
    (hp0 : 0 ≤ o.plasmaU k) (hp1 : o.plasmaU k ≤ 1) :
    1/10 ≤ (mutatedSpider o k).solid_thresh ∧
    (mutatedSpider o k).solid_thresh ≤ 4/10 ∧
    6/10 ≤ (mutatedSpider o k).plasma_thresh ∧
    (mutatedSpider o k).plasma_thresh ≤ 9/10 := by
  unfold mutatedSpider
  refine ⟨?_, ?_, ?_, ?_⟩ <;> nlinarith

/-- C9: at every point of any run the classifier's thresholds satisfy
solid < plasma — the initial classifier is (0.2, 0.8) and every mutation draws
from the disjoint ordered bands [0.1,0.4] and [0.6,0.9]. -/
theorem classifier_thresholds_ordered (o : Oracle)
    (hs : ∀ k, 0 ≤ o.solidU k ∧ o.solidU k ≤ 1)
    (hp : ∀ k, 0 ≤ o.plasmaU k ∧ o.plasmaU k ≤ 1) (k : ℕ) :
    (simRun o k).spider.solid_thresh < (simRun o k).spider.plasma_thresh := by
  induction k with
  | zero => norm_num [simRun, initState, initSpider]
  | succ k ih =>
    show (update o k (simRun o k)).spider.solid_thresh <
      (update o k (simRun o k)).spider.plasma_thresh
    rw [update_spider]
    rcases plasma_mutate_cases o k
      (classifiedNeurons k (simRun o k).spider (simRun o k).neurons)
      (simRun o k).spider with h | h
    · rw [h]
      exact ih
    · rw [h]
      obtain ⟨h1, h2, h3, h4⟩ :=
        mutatedSpider_bands o k (hs k).1 (hs k).2 (hp k).1 (hp k).2
      linarith

/-- Witness for `classifier_thresholds_ordered` at the constant oracle after
five steps. -/
theorem classifier_thresholds_ordered_witness :
    (simRun o0 5).spider.solid_thresh < (simRun o0 5).spider.plasma_thresh :=
  classifier_thresholds_ordered o0
    (fun k => ⟨by norm_num [o0], by norm_num [o0]⟩)
    (fun k => ⟨by norm_num [o0], by norm_num [o0]⟩) 5

/-- C6: if at least one agent is classified PLASMA in a step, the classifier
carried into the next step is the freshly drawn one, with solid threshold in
[0.1, 0.4] and plasma threshold in [0.6, 0.9]; if no agent is PLASMA the
classifier value is unchanged. -/
theorem classifier_mutation_rule (o : Oracle) (k : ℕ) (s : SimState)
    (hs0 : 0 ≤ o.solidU k) (hs1 : o.solidU k ≤ 1)
    (hp0 : 0 ≤ o.plasmaU k) (hp1 : o.plasmaU k ≤ 1) :
    ((∃ n ∈ classifiedNeurons k s.spider s.neurons,
        n.phase = Phase.PLASMA) →
      (update o k s).spider = mutatedSpider o k ∧
      1/10 ≤ (update o k s).spider.solid_thresh ∧
      (update o k s).spider.solid_thresh ≤ 4/10 ∧
      6/10 ≤ (update o k s).spider.plasma_thresh ∧
      (update o k s).spider.plasma_thresh ≤ 9/10) ∧
    ((¬ ∃ n ∈ classifiedNeurons k s.spider s.neurons,
        n.phase = Phase.PLASMA) →
      (update o k s).spider = s.spider) := by
  constructor
  · intro hex
    have hany : (classifiedNeurons k s.spider s.neurons).any
        (fun n => n.phase = Phase.PLASMA) = true := by
      rw [List.any_eq_true]
      obtain ⟨n, hn, hph⟩ := hex
      exact ⟨n, hn, by simpa using hph⟩
    rw [update_spider]
    unfold plasma_mutate_spider
    rw [if_pos hany]
    obtain ⟨h1, h2, h3, h4⟩ := mutatedSpider_bands o k hs0 hs1 hp0 hp1
    exact ⟨rfl, h1, h2, h3, h4⟩
  · intro hnex
    have hany : ¬ ((classifiedNeurons k s.spider s.neurons).any
        (fun n => n.phase = Phase.PLASMA) = true) := by
      rw [List.any_eq_true]
      rintro ⟨n, hn, hph⟩
      exact hnex ⟨n, hn, by simpa using hph⟩
    rw [update_spider]
    unfold plasma_mutate_spider
    rw [if_neg hany]

/-- Witness for `classifier_mutation_rule`: with an empty population nothing
is classified PLASMA and the classifier survives unchanged. -/
theorem classifier_mutation_rule_witness :
    (update o0 0 wStateE).spider = wStateE.spider :=
  (classifier_mutation_rule o0 0 wStateE (by norm_num [o0])
      (by norm_num [o0]) (by norm_num [o0]) (by norm_num [o0])).2
    (by
      rintro ⟨n, hn, -⟩
      revert hn
      rw [show (wStateE.neurons : List Neuron) = [] from rfl,
        classifiedNeurons_nil]
      exact List.not_mem_nil n)

-- ==============================
-- Claims C3 and C8: sequential reads of the state pass, and the
-- state/memory invariant
-- ==============================

theorem stateStepAt_get_ne (o : Oracle) (k : ℕ) (nb : List (List ℕ))
    (ns : List Neuron) (i j : ℕ) (hij : i ≠ j) :
    (stateStepAt o k nb ns i).get? j = ns.get? j := by
  unfold stateStepAt
  split
  · rfl
  · exact List.get?_set_ne _ _ hij

theorem foldl_stateStepAt_get_ne (o : Oracle) (k : ℕ) (nb : List (List ℕ))
    (l : List ℕ) (ns : List Neuron) (j : ℕ) (h : ∀ i ∈ l, i ≠ j) :
    (l.foldl (stateStepAt o k nb) ns).get? j = ns.get? j := by
  induction l generalizing ns with
  | nil => rfl
  | cons i l ih =>
    rw [List.foldl_cons, ih _ (fun x hx => h x (List.mem_cons_of_mem i hx)),
      stateStepAt_get_ne o k nb ns i j (h i (List.mem_cons_self i l))]

theorem statePass_split (o : Oracle) (k : ℕ) (nb : List (List ℕ))
    (ns : List Neuron) (i : ℕ) (h : i < ns.length) :
    statePass o k nb ns =
      (List.range' (i+1) (ns.length - (i+1))).foldl (stateStepAt o k nb)
        (stateStepAt o k nb ((List.range i).foldl (stateStepAt o k nb) ns) i) := by
  unfold statePass
  have hstep : (i : ℕ) :: List.range' (i+1) (ns.length - (i+1)) =
      List.range' i (ns.length - i) := by
    rw [show ns.length - i = (ns.length - (i+1)) + 1 from by omega,
      List.range'_succ]
  have hsplit : List.range ns.length =
      List.range i ++ i :: List.range' (i+1) (ns.length - (i+1)) := by
    rw [List.range_eq_range', List.range_eq_range', hstep]
    have := List.range'_append 0 i (ns.length - i) 1
    simp only [Nat.zero_add, Nat.one_mul] at this
    rw [this, show ns.length - i + i = ns.length from by omega]
  rw [hsplit, List.foldl_append, List.foldl_cons]

theorem statePass_get_final (o : Oracle) (k : ℕ) (nb : List (List ℕ))
    (ns : List Neuron) (i : ℕ) (h : i < ns.length) :
    (statePass o k nb ns).get? i =
      (stateStepAt o k nb ((List.range i).foldl (stateStepAt o k nb) ns) i).get? i := by
  rw [statePass_split o k nb ns i h]
  apply foldl_stateStepAt_get_ne
  intro x hx
  rw [List.mem_range'] at hx
  obtain ⟨m, hm, rfl⟩ := hx
  omega

theorem statePass_prefix_get (o : Oracle) (k : ℕ) (nb : List (List ℕ))
    (ns : List Neuron) (i j : ℕ) (hij : i ≤ j) :
    ((List.range i).foldl (stateStepAt o k nb) ns).get? j = ns.get? j := by
  apply foldl_stateStepAt_get_ne
  intro x hx
  have := List.mem_range.mp hx
  omega

theorem statePass_prefix_eq (o : Oracle) (k : ℕ) (nb : List (List ℕ))
    (ns : List Neuron) (i : ℕ) (h : i < ns.length) :
    (List.range i).foldl (stateStepAt o k nb) ns =
      (statePass o k nb ns).take i ++ ns.drop i := by
  apply List.ext_get?
  intro j
  by_cases hj : j < i
  · have hfin : (statePass o k nb ns).get? j =
        ((List.range i).foldl (stateStepAt o k nb) ns).get? j := by
      rw [statePass_split o k nb ns i h,
        foldl_stateStepAt_get_ne o k nb _ _ j
          (by
            intro x hx
            rw [List.mem_range'] at hx
            obtain ⟨m, hm, rfl⟩ := hx
            omega),
        stateStepAt_get_ne o k nb _ i j (by omega)]
    rw [← hfin, List.get?_append, List.get?_take hj]
    rw [List.length_take, statePass_length]
    omega
  · rw [statePass_prefix_get o k nb ns i j (by omega),
      List.get?_append_right, List.length_take, statePass_length,
      show min i ns.length = i from by omega, List.get?_drop]
    · congr 1
      omega
    · rw [List.length_take, statePass_length]
      omega

theorem statePass_mixed_zone (o : Oracle) (k : ℕ) (nb : List (List ℕ))
    (ns : List Neuron) (i : ℕ) (h : i < ns.length) :
    (statePass o k nb ns).get? i =
      (stateStepAt o k nb ((statePass o k nb ns).take i ++ ns.drop i) i).get? i := by
  rw [statePass_get_final o k nb ns i h, statePass_prefix_eq o k nb ns i h]

theorem spatialStepAt_fields (o : Oracle) (k : ℕ) (nb : List (List ℕ))
    (ns : List Neuron) (i j : ℕ) :
    ((spatialStepAt o k nb ns i).get? j).map
        (fun n => (n.state, n.memory, n.phase)) =
      (ns.get? j).map (fun n => (n.state, n.memory, n.phase)) := by
  unfold spatialStepAt
  split
  · rfl
  · rename_i n hn
    by_cases hij : i = j
    · subst hij
      rw [List.get?_set_eq, hn]
      rfl
    · rw [List.get?_set_ne _ _ hij]

theorem foldl_spatialStepAt_fields (o : Oracle) (k : ℕ) (nb : List (List ℕ))
    (l : List ℕ) (ns : List Neuron) (j : ℕ) :
    ((l.foldl (spatialStepAt o k nb) ns).get? j).map
        (fun n => (n.state, n.memory, n.phase)) =
      (ns.get? j).map (fun n => (n.state, n.memory, n.phase)) := by
  induction l generalizing ns with
  | nil => rfl
  | cons i l ih =>
    rw [List.foldl_cons, ih, spatialStepAt_fields]

theorem spatialPass_fields (o : Oracle) (k : ℕ) (nb : List (List ℕ))
    (ns : List Neuron) (j : ℕ) :
    ((spatialPass o k nb ns).get? j).map
        (fun n => (n.state, n.memory, n.phase)) =
      (ns.get? j).map (fun n => (n.state, n.memory, n.phase)) := by
  unfold spatialPass
  rw [foldl_spatialStepAt_fields]

theorem neuronFullOK.rangeOK {n : Neuron} (h : neuronFullOK n) :
    neuronRangeOK n := by
  obtain ⟨⟨h1, h2⟩, h3⟩ := h
  exact ⟨h1, h2, by omega, by omega⟩

theorem clamp13_bounds (s : ℤ) : 1 ≤ clamp13 s ∧ clamp13 s ≤ 3 := by
  unfold clamp13
  omega

theorem classifyPass_get (sp : TensionSpider) (ns : List Neuron)
    (nb : List (List ℕ)) (i : ℕ) :
    (classifyPass sp ns nb).get? i =
      (ns.get? i).map (fun n => sp.apply n (nbrsOf nb ns i)) := by
  unfold classifyPass
  rw [List.get?_eq_getElem?, List.get?_eq_getElem?, List.getElem?_mapIdx]

theorem stateStepAt_get_self (o : Oracle) (k : ℕ) (nb : List (List ℕ))
    (ns : List Neuron) (i : ℕ) (n : Neuron) (hn : ns.get? i = some n) :
    ∃ s1 : ℤ,
      (stateStepAt o k nb ns i).get? i =
        some { n with state := s1, memory := s1 } ∧
      (s1 = o.plasmaDraw k i ∨ (∃ c, s1 = clamp13 c) ∨ s1 = n.memory ∨
        s1 = n.state) := by
  unfold stateStepAt
  rw [hn]
  dsimp only
  by_cases h1 : n.phase = Phase.PLASMA
  · refine ⟨o.plasmaDraw k i, ?_, Or.inl rfl⟩
    rw [if_pos h1, List.get?_set_eq, hn]
    rfl
  · rw [if_neg h1]
    by_cases h2 : n.phase = Phase.LIQUID ∧ nbrsOf nb ns i ≠ []
    · refine ⟨clamp13 (pyRound
          ((List.map (fun m => (m.state : ℚ)) (nbrsOf nb ns i)).sum
            / ((nbrsOf nb ns i).length : ℚ)) + o.choiceDraw k i), ?_,
        Or.inr (Or.inl ⟨_, rfl⟩)⟩
      rw [if_pos h2, List.get?_set_eq, hn]
      rfl
    · rw [if_neg h2]
      by_cases h3 : n.phase = Phase.SOLID
      · refine ⟨n.memory, ?_, Or.inr (Or.inr (Or.inl rfl))⟩
        rw [if_pos h3, List.get?_set_eq, hn]
        rfl
      · refine ⟨n.state, ?_, Or.inr (Or.inr (Or.inr rfl))⟩
        rw [if_neg h3, List.get?_set_eq, hn]
        rfl

theorem pokeAt_mem_inv (k : ℕ) (ns : List Neuron)
    (h : ∀ n ∈ ns, neuronRangeOK n) :
    ∀ n ∈ pokeAt k ns, neuronRangeOK n := by
  intro n2 hmem
  unfold pokeAt at hmem
  split at hmem
  · split at hmem
    · rename_i n hn
      rcases List.mem_or_eq_of_mem_set hmem with hm | he
      · exact h n2 hm
      · subst he
        have hold := h n (List.get?_mem hn)
        obtain ⟨-, -, h3, h4⟩ := hold
        exact ⟨by norm_num [POKE_VALUE], by norm_num [POKE_VALUE], h3, h4⟩
    · exact h n2 hmem
  · exact h n2 hmem

theorem classifyPass_mem_inv (sp : TensionSpider) (ns : List Neuron)
    (nb : List (List ℕ)) (h : ∀ n ∈ ns, neuronRangeOK n) :
    ∀ n2 ∈ classifyPass sp ns nb, neuronRangeOK n2 := by
  intro n2 hmem
  obtain ⟨j, hj⟩ := List.mem_iff_get?.mp hmem
  rw [classifyPass_get] at hj
  cases hns : ns.get? j with
  | none => rw [hns] at hj; cases hj
  | some n =>
    rw [hns] at hj
    have hn := h n (List.get?_mem hns)
    obtain ⟨h1, h2, h3, h4⟩ := hn
    have he : n2 = sp.apply n (nbrsOf nb ns j) := by
      injection hj with hj2
      exact hj2.symm
    rw [he]
    exact ⟨by rw [apply_state]; exact h1, by rw [apply_state]; exact h2,
      by rw [apply_memory]; exact h3, by rw [apply_memory]; exact h4⟩

theorem statePass_mem_inv (o : Oracle) (k : ℕ) (nb : List (List ℕ))
    (ns : List Neuron)
    (hdraw : ∀ i, 1 ≤ o.plasmaDraw k i ∧ o.plasmaDraw k i ≤ 3)
    (hr : ∀ n ∈ ns, neuronRangeOK n) :
    ∀ n2 ∈ statePass o k nb ns, neuronFullOK n2 := by
  intro n2 hmem
  obtain ⟨j, hj⟩ := List.mem_iff_get?.mp hmem
  have hjlen : j < ns.length := by
    by_contra hge
    have : (statePass o k nb ns).get? j = none := by
      rw [List.get?_eq_none, statePass_length]
      omega
    rw [this] at hj
    cases hj
  rw [statePass_get_final o k nb ns j hjlen] at hj
  have hpre := statePass_prefix_get o k nb ns j j (le_refl j)
  cases hns : ns.get? j with
  | none =>
    rw [List.get?_eq_none] at hns
    omega
  | some n =>
    rw [hns] at hpre
    obtain ⟨s1, heq, hcase⟩ :=
      stateStepAt_get_self o k nb _ j n hpre
    rw [heq] at hj
    injection hj with hj2
    have hn : neuronRangeOK n := hr n (List.get?_mem hns)
    obtain ⟨h1, h2, h3, h4⟩ := hn
    rw [← hj2]
    refine ⟨?_, rfl⟩
    rcases hcase with hc | ⟨c, hc⟩ | hc | hc <;> subst hc
    · exact hdraw j
    · exact clamp13_bounds c
    · exact ⟨h3, h4⟩
    · exact ⟨h1, h2⟩

theorem spatialPass_mem_inv (o : Oracle) (k : ℕ) (nb : List (List ℕ))
    (ns : List Neuron) (h : ∀ n ∈ ns, neuronFullOK n) :
    ∀ n2 ∈ spatialPass o k nb ns, neuronFullOK n2 := by
  intro n2 hmem
  obtain ⟨j, hj⟩ := List.mem_iff_get?.mp hmem
  have := spatialPass_fields o k nb ns j
  rw [hj] at this
  cases hns : ns.get? j with
  | none => rw [hns] at this; cases this
  | some n =>
    rw [hns] at this
    injection this with h2
    have hn := h n (List.get?_mem hns)
    obtain ⟨hfields, -⟩ := Prod.mk.injEq _ _ _ _ ▸ h2
    · obtain ⟨⟨hs1, hs2⟩, hm⟩ := hn
      have hstate : n2.state = n.state := congrArg Prod.fst h2
      have hmem2 : n2.memory = n.memory := congrArg (fun q => q.2.1) h2
      exact ⟨⟨by omega, by omega⟩, by rw [hmem2, hstate, hm]⟩

theorem predation_fst_subset (o : Oracle) (k : ℕ) (ns : List Neuron)
    (p : Option Predator) : ∀ n ∈ (predation o k ns p).1, n ∈ ns := by
  cases p with
  | none => intro n hn; exact hn
  | some q =>
    intro n hn
    exact (List.mem_filter.mp hn).1

theorem update_mem_inv (o : Oracle) (k : ℕ) (s : SimState)
    (hdraw : ∀ i, 1 ≤ o.plasmaDraw k i ∧ o.plasmaDraw k i ≤ 3)
    (h : ∀ n ∈ s.neurons, neuronFullOK n) :
    ∀ n ∈ (update o k s).neurons, neuronFullOK n := by
  intro n hn
  rw [update_neurons] at hn
  have hn2 := predation_fst_subset o k _ _ n hn
  unfold neuronPipeline at hn2
  refine spatialPass_mem_inv o k _ _ ?_ n hn2
  intro n3 hn3
  refine statePass_mem_inv o k _ _ hdraw ?_ n3 hn3
  intro n4 hn4
  refine classifyPass_mem_inv _ _ _ ?_ n4 hn4
  intro n5 hn5
  refine pokeAt_mem_inv k _ ?_ n5 hn5
  intro n6 hn6
  exact (h n6 hn6).rangeOK

/-- C8: at the end of every step of any run, every surviving agent has
state in {1,2,3} and memory equal to state — including the poked agent
(POKE_VALUE = 3 is itself in range and memory is recommitted by the pass). -/
theorem state_memory_invariant (o : Oracle)
    (hinit : ∀ i, 1 ≤ o.initStateDraw i ∧ o.initStateDraw i ≤ 3)
    (hdraw : ∀ k i, 1 ≤ o.plasmaDraw k i ∧ o.plasmaDraw k i ≤ 3) (k : ℕ) :
    ((simRun o k).neurons.all fun n =>
      decide ((1 ≤ n.state ∧ n.state ≤ 3) ∧ n.memory = n.state)) = true := by
  rw [List.all_eq_true]
  have key : ∀ n ∈ (simRun o k).neurons, neuronFullOK n := by
    induction k with
    | zero =>
      intro n hn
      have hn2 : n ∈ initNeurons o := hn
      obtain ⟨i, hi, rfl⟩ := List.mem_map.mp hn2
      exact ⟨hinit i, rfl⟩
    | succ k ih =>
      exact update_mem_inv o k (simRun o k) (hdraw k) ih
  intro n hn
  rw [decide_eq_true_eq]
  exact key n hn

/-- Witness for `state_memory_invariant` after one step of the constant
oracle run. -/
theorem state_memory_invariant_witness :
    ((simRun o0 1).neurons.all fun n =>
      decide ((1 ≤ n.state ∧ n.state ≤ 3) ∧ n.memory = n.state)) = true :=
  state_memory_invariant o0 (fun i => by norm_num [o0])
    (fun k i => by norm_num [o0]) 1

/-- C3 (amended): within a step the state-update pass reads the current
states — agent i's rule reads, for each neighbor of index j < i, the state
already updated earlier in the same pass, and for j ≥ i the start-of-pass
state; the spatial pass does not modify states or memories, so its same-state
comparison reads the post-state-update states rather than the step's start. -/
theorem state_pass_reads_current :
    (∀ (o : Oracle) (k : ℕ) (nb : List (List ℕ)) (ns : List Neuron) (i : ℕ),
      i < ns.length →
      (statePass o k nb ns).get? i =
        (stateStepAt o k nb ((statePass o k nb ns).take i ++ ns.drop i)
          i).get? i) ∧
    (∀ (o : Oracle) (k : ℕ) (nb : List (List ℕ)) (ns : List Neuron) (i : ℕ),
      ((spatialPass o k nb ns).get? i).map
          (fun n => (n.state, n.memory, n.phase)) =
        (ns.get? i).map (fun n => (n.state, n.memory, n.phase))) :=
  ⟨statePass_mixed_zone, spatialPass_fields⟩

/-- Witness for `state_pass_reads_current` on a concrete two-agent list. -/
theorem state_pass_reads_current_witness :
    (statePass o0 0 [[1], [0]] [wN1, wN2]).get? 1 =
      (stateStepAt o0 0 [[1], [0]]
        ((statePass o0 0 [[1], [0]] [wN1, wN2]).take 1 ++
          [wN1, wN2].drop 1) 1).get? 1 :=
  state_pass_reads_current.1 o0 0 [[1], [0]] [wN1, wN2] 1 (by decide)

set_option maxRecDepth 10000 in
/-- C3 counterexample: at step 0 of the run driven by `oSnap`, neuron 0 is
classified PLASMA (redrawn to state 3) and neuron 1 LIQUID; the source's
sequential pass hands neuron 1 the mean of the already-updated neighbor
states (3 and 3) giving state 3, while the spec's frozen-snapshot reading
gives round((2+3)/2) = 2 (banker's rounding). -/
theorem frozen_snapshot_counterexample :
    ((update oSnap 0 (initState oSnap)).neurons.map Neuron.state).get? 1 =
      some 3 ∧
    ((updateFrozen oSnap 0 (initState oSnap)).neurons.map
      Neuron.state).get? 1 = some 2 := by
  constructor <;> with_unfolding_all decide
